import Mathlib

/-!
Verification development for the ai-sales-assistant inbound-message pipeline.

Shallow embedding of the lead qualifier (`app/services/crm/lead_qualifier.py`),
the conversation FSM and extraction loop
(`app/services/avito/conversation_manager.py`), the phone extractor
(`app/services/avito/data_extractors.py`), the lead service
(`app/services/avito/lead_service.py`) and the webhook handler / route
(`app/services/avito/webhook.py`, `app/api/routes/avito.py`).

Conventions: Python `float` confidences are modelled as `Rat` (only simple
decimal constants and comparisons occur); Python string truthiness is modelled
by `optTruthy` (`None` and `""` are falsy); fallible code returns `Except`.
-/

namespace AiSales

/-- Python truthiness of an optional string: `None` and the empty string are
falsy, every other string is truthy. -/
def optTruthy : Option String → Bool
  | none => false
  | some s => !s.isEmpty

/-! ## Lead qualifier (`app/services/crm/lead_qualifier.py`)

`LeadStage` is the `Literal["first_contact", "negotiation", "decision",
"contract"]` type; `STAGE_TO_STATUS`, `STAGE_ORDER` and `PIPELINE_ID` are the
class constants of `LeadQualifier`. -/

inductive LeadStage where
  | first_contact
  | negotiation
  | decision
  | contract
deriving DecidableEq, Repr

/-- `LeadQualifier.STAGE_TO_STATUS`: stage → amoCRM status id. -/
def STAGE_TO_STATUS : LeadStage → Int
  | .first_contact => 80984178
  | .negotiation => 80984182
  | .decision => 80984186
  | .contract => 80984190

/-- `LeadQualifier.STAGE_ORDER`: stage → rank in the funnel. -/
def STAGE_ORDER : LeadStage → Nat
  | .first_contact => 1
  | .negotiation => 2
  | .decision => 3
  | .contract => 4

/-- `LeadQualifier.PIPELINE_ID`. -/
def PIPELINE_ID : Int := 10230522

/-- The reverse dictionary `status_to_stage` built at the start of
`should_update_stage` (`{status: stage for stage, status in
cls.STAGE_TO_STATUS.items()}`), applied via `.get` (returns `None` for an
unknown status id). -/
def status_to_stage (status_id : Int) : Option LeadStage :=
  if status_id = 80984178 then some .first_contact
  else if status_id = 80984182 then some .negotiation
  else if status_id = 80984186 then some .decision
  else if status_id = 80984190 then some .contract
  else none

/-- `LeadQualifier.should_update_stage(current_status_id, new_status_id)`.
Looks both ids up in the reverse table; if either is unknown it logs a warning
and returns `False`; otherwise compares ranks (`new_order > current_order`).
The `.get(stage, 0)` defaults in the source are unreachable because every
stage is a key of `STAGE_ORDER`. -/
def should_update_stage (current_status_id new_status_id : Int) : Bool :=
  match status_to_stage current_status_id, status_to_stage new_status_id with
  | some current_stage, some new_stage =>
      STAGE_ORDER new_stage > STAGE_ORDER current_stage
  | _, _ => false

end AiSales

namespace AiSales

/-! ## Conversation data model (`app/models/conversation.py`)

`ConversationContext` keeps the fields the pipeline reads and writes; the
`metadata` timestamps (`created_at`, `updated_at`) are wall-clock values and
are omitted; `messages` keeps role and text (timestamps likewise omitted). -/

inductive ConversationState where
  | start
  | greeting
  | name_collected
  | need_identified
  | phone_collected
  | qualified
deriving DecidableEq, Repr, Fintype

inductive MessageRole where
  | user
  | bot
deriving DecidableEq, Repr

structure ConversationContext where
  chat_id : String
  state : ConversationState := .start
  user_name : Option String := none
  phone : Option String := none
  email : Option String := none
  pain_point : Option String := none
  product_interest : Option String := none
  messages : List (MessageRole × String) := []
deriving DecidableEq, Repr

/-- `ConversationContext.add_message`. -/
def add_message (ctx : ConversationContext) (role : MessageRole)
    (text : String) : ConversationContext :=
  { ctx with messages := ctx.messages ++ [(role, text)] }

/-- `ExtractionResult` (value, confidence, reasoning) as produced by the name
and phone extractors. -/
structure ExtractionResult where
  value : Option String
  confidence : ℚ
  reasoning : String
deriving DecidableEq, Repr

/-- The `pain_point`/`product_interest` dictionary that `NeedExtractor`
serializes with `json.dumps` and `_try_extract_data` immediately parses back
with `json.loads`; modelled in parsed form (the round trip is the identity,
and a present value is a non-empty JSON string, hence truthy). -/
structure NeedPayload where
  pain_point : Option String
  product_interest : Option String
deriving DecidableEq, Repr

/-- The `ExtractionResult` of `NeedExtractor.extract`, with `value` in parsed
form (`none` when the extractor returned `value=None`). -/
structure NeedExtractionResult where
  value : Option NeedPayload
  confidence : ℚ
deriving DecidableEq, Repr

/-- One element of the `asyncio.gather(..., return_exceptions=True)` result
list: either a raised exception or the extractor's returned result. -/
inductive ExtractorOutcome (α : Type) where
  | exn
  | res (r : α)
deriving DecidableEq, Repr

/-- The three outcomes an extraction pass can observe, one per extractor. -/
structure ExtractorOutcomes where
  name : ExtractorOutcome ExtractionResult
  phone : ExtractorOutcome ExtractionResult
  need : ExtractorOutcome NeedExtractionResult

/-- The extraction-threshold settings (`app/core/settings.py`, defaults
0.7 / 0.8 / 0.6). -/
structure Settings where
  name_extraction_threshold : ℚ := mkRat 7 10
  phone_extraction_threshold : ℚ := mkRat 8 10
  need_extraction_threshold : ℚ := mkRat 6 10

/-! ## `AvitoConversationManager._try_extract_data`

The task list is built in the fixed order name, phone, need, skipping each
extractor whose target field is already truthy.  The processing loop then
iterates over `zip(task_types, results)`.

In the source the three statements

    context.pain_point = data.get("pain_point")
    context.product_interest = data.get("product_interest")
    logger.info(...)

are indented at the level of the `for` body, not inside the
`elif task_type == "need":` branch, so they execute on **every** iteration
that is not skipped by the `continue` for exception results.  `data` is a
local bound only inside the need branch's inner `if`; referencing it while
unbound raises `UnboundLocalError`, modelled as `Except.error ()`. -/

inductive TaskType where
  | name
  | phone
  | need
deriving DecidableEq, Repr

/-- The `tasks` list built at the top of `_try_extract_data` (only the task
types; the coroutines are the extractors run with the current message). -/
def extraction_tasks (ctx : ConversationContext) : List TaskType :=
  (if optTruthy ctx.user_name then [] else [TaskType.name]) ++
    (if optTruthy ctx.phone then [] else [TaskType.phone]) ++
      (if optTruthy ctx.pain_point then [] else [TaskType.need])

/-- The mis-indented trailing statements of the loop body: assign
`context.pain_point` and `context.product_interest` from `data`, raising
`UnboundLocalError` when `data` is still unbound. -/
def need_assign (ctx : ConversationContext) (data : Option NeedPayload) :
    Except Unit (ConversationContext × Option NeedPayload) :=
  match data with
  | none => .error ()
  | some d =>
      .ok ({ ctx with pain_point := d.pain_point,
                      product_interest := d.product_interest }, some d)

/-- One iteration of the `for task_type, result in zip(task_types, results)`
loop.  An exception result is logged and skipped (`continue`); otherwise the
`if`/`elif` chain conditionally writes the field for this task type, and then
the trailing statements (`need_assign`) run. -/
def process_task (settings : Settings) (o : ExtractorOutcomes)
    (st : ConversationContext × Option NeedPayload) (t : TaskType) :
    Except Unit (ConversationContext × Option NeedPayload) :=
  let (ctx, data) := st
  match t with
  | .name =>
      match o.name with
      | .exn => .ok (ctx, data)
      | .res r =>
          let ctx :=
            if optTruthy r.value ∧
                r.confidence ≥ settings.name_extraction_threshold then
              { ctx with user_name := r.value }
            else ctx
          need_assign ctx data
  | .phone =>
      match o.phone with
      | .exn => .ok (ctx, data)
      | .res r =>
          let ctx :=
            if optTruthy r.value ∧
                r.confidence ≥ settings.phone_extraction_threshold then
              { ctx with phone := r.value }
            else ctx
          need_assign ctx data
  | .need =>
      match o.need with
      | .exn => .ok (ctx, data)
      | .res r =>
          let data :=
            if r.value.isSome ∧
                r.confidence ≥ settings.need_extraction_threshold then
              r.value
            else data
          need_assign ctx data

/-- `AvitoConversationManager._try_extract_data`: run the applicable
extractors (their outcomes given by `o`) and fold the processing loop over
the task list; `data` starts unbound. -/
def try_extract_data (settings : Settings) (o : ExtractorOutcomes)
    (ctx : ConversationContext) : Except Unit ConversationContext :=
  (List.foldlM (process_task settings o) (ctx, none)
      (extraction_tasks ctx)).map Prod.fst

/-! ## `AvitoConversationManager._update_state` and `handle_message` -/

/-- The state-transition chain of `_update_state`, as a function of the
current state and the truthiness of `pain_point`, `user_name` and `phone`
(the exact tests the method performs on the context). -/
def update_state_fn (s : ConversationState) (pain name phone : Bool) :
    ConversationState :=
  if s = .start then .greeting
  else if s = .greeting then
    if pain then .need_identified
    else if name then .name_collected
    else s
  else if s = .name_collected then
    if pain then .need_identified else s
  else if s = .need_identified then
    if phone then .phone_collected else s
  else s

/-- `AvitoConversationManager._update_state`. -/
def update_state (ctx : ConversationContext) : ConversationContext :=
  { ctx with
      state := update_state_fn ctx.state (optTruthy ctx.pain_point)
        (optTruthy ctx.user_name) (optTruthy ctx.phone) }

/-- The special confirmation reply built in `handle_message` on the
transition into PHONE_COLLECTED (f-string; Python renders a `None` field as
the string "None"; emojis elided). -/
def confirm_reply (ctx : ConversationContext) : String :=
  "Спасибо, " ++ (match ctx.user_name with | some n => n | none => "None") ++
    "? Я передал вашу заявку специалисту по " ++
    (match ctx.product_interest with
     | some p => if p.isEmpty then "автоматизации" else p
     | none => "автоматизации") ++
    " — он свяжется с вами в течение часа."

/-- `AvitoConversationManager.handle_message`: append the user message,
remember the old state, run `_try_extract_data` (whose `UnboundLocalError`
propagates — there is no `try`/`except` around it), run `_update_state`,
then, if the state just became PHONE_COLLECTED, schedule lead creation in
the background, move to QUALIFIED and answer with the canned confirmation;
otherwise answer with the reply produced by `_generate_response` (an
LLM/fallback collaborator, passed in as `generated`).  Returns the saved
context and the reply. -/
def handle_message (settings : Settings) (o : ExtractorOutcomes)
    (generated : String) (ctx₀ : ConversationContext) (message : String) :
    Except Unit (ConversationContext × String) := do
  let ctx := add_message ctx₀ .user message
  let old_state := ctx.state
  let ctx ← try_extract_data settings o ctx
  let ctx := update_state ctx
  let (ctx, bot_response) :=
    if old_state ≠ ConversationState.phone_collected ∧
        ctx.state = ConversationState.phone_collected then
      ({ ctx with state := .qualified }, confirm_reply ctx)
    else (ctx, generated)
  let ctx := add_message ctx .bot bot_response
  return (ctx, bot_response)

end AiSales
namespace AiSales

/-! ## State rank and the §4.3 transition table -/

/-- Rank of a state along the funnel (START = 0 … QUALIFIED = 5). -/
def state_rank : ConversationState → Nat
  | .start => 0
  | .greeting => 1
  | .name_collected => 2
  | .need_identified => 3
  | .phone_collected => 4
  | .qualified => 5

/-- The §4.3 transition table, relative to the truthiness of the collected
fields after the turn's extraction pass: either no transition, or one of the
listed edges.  The PHONE_COLLECTED → QUALIFIED edge is the same-turn jump
performed by `handle_message` on entering PHONE_COLLECTED. -/
def table_step (s s' : ConversationState) (pain name phone : Bool) : Prop :=
  s' = s ∨
    (s = .start ∧ s' = .greeting) ∨
    (s = .greeting ∧ s' = .name_collected ∧ name = true) ∨
    (s = .greeting ∧ s' = .need_identified ∧ pain = true) ∨
    (s = .name_collected ∧ s' = .need_identified ∧ pain = true) ∨
    (s = .need_identified ∧ s' = .phone_collected ∧ phone = true) ∨
    (s = .phone_collected ∧ s' = .qualified)

instance (s s' : ConversationState) (pain name phone : Bool) :
    Decidable (table_step s s' pain name phone) := by
  unfold table_step
  infer_instance

/-! ## Phone extractor (`PhoneExtractor` in
`app/services/avito/data_extractors.py`)

`PHONE_PATTERNS` is the class constant.  Each pattern is a plain
concatenation of literals, `\s*`, optional single characters (`[\(]?`,
`[\)]?`, `[-\s]?`) and fixed-width digit runs.  In every pattern an optional
or starred element's admissible characters are disjoint from the characters
the next mandatory element can start with (whitespace / parens / dash versus
digits), so Python's backtracking `re.search` agrees with the greedy
no-backtracking matcher below.  `\s` and `\d` are taken in their ASCII
reading. -/

/-- Python `\s` over ASCII: space, tab, newline, carriage return, form feed,
vertical tab. -/
def isWs (c : Char) : Bool :=
  c = ' ' ∨ c = '\t' ∨ c = '\n' ∨ c = '\r' ∨ c = '\x0b' ∨ c = '\x0c'

/-- One element of a phone pattern. -/
inductive Tok where
  | lit (c : Char)
  | wsStar
  | optChar (c : Char)
  | digits (n : Nat)
  | optDashWs
deriving DecidableEq, Repr

/-- Match one token at the head of the input, returning the consumed
characters and the rest (greedy). -/
def matchTok : Tok → List Char → Option (List Char × List Char)
  | .lit ch, c :: rest => if c = ch then some ([c], rest) else none
  | .lit _, [] => none
  | .wsStar, s => some (s.takeWhile isWs, s.dropWhile isWs)
  | .optChar ch, c :: rest => if c = ch then some ([c], rest) else some ([], c :: rest)
  | .optChar _, [] => some ([], [])
  | .digits n, s =>
      let d := s.take n
      if d.length = n ∧ d.all Char.isDigit then some (d, s.drop n) else none
  | .optDashWs, c :: rest =>
      if c = '-' ∨ isWs c then some ([c], rest) else some ([], c :: rest)
  | .optDashWs, [] => some ([], [])

/-- Match a token list at the head of the input. -/
def matchToks : List Tok → List Char → Option (List Char × List Char)
  | [], s => some ([], s)
  | t :: ts, s =>
      match matchTok t s with
      | none => none
      | some (c, r) =>
          match matchToks ts r with
          | none => none
          | some (c₂, r₂) => some (c ++ c₂, r₂)

/-- `re.search`: the match at the leftmost position where the pattern
matches, scanning left to right. -/
def searchToks (toks : List Tok) : List Char → Option (List Char)
  | [] => (matchToks toks []).map Prod.fst
  | c :: rest =>
      match matchToks toks (c :: rest) with
      | some (m, _) => some m
      | none => searchToks toks rest

/-- The shared tail `\s*[\(]?\d{3}[\)]?\s*\d{3}[-\s]?\d{2}[-\s]?\d{2}` of the
first three patterns. -/
def core_pattern : List Tok :=
  [.wsStar, .optChar '(', .digits 3, .optChar ')', .wsStar,
   .digits 3, .optDashWs, .digits 2, .optDashWs, .digits 2]

/-- `PhoneExtractor.PHONE_PATTERNS`, in source order:
`\+7…`, `8…`, `7…`, `\d{10}`. -/
def PHONE_PATTERNS : List (List Tok) :=
  [[.lit '+', .lit '7'] ++ core_pattern,
   [.lit '8'] ++ core_pattern,
   [.lit '7'] ++ core_pattern,
   [.digits 10]]

/-- The normalization in `_extract_with_regex`: strip non-digits (already
done by the caller), then branch on the digit count; `digits[0]` is the
leading digit. -/
def normalize_digits (digits : List Char) : String :=
  if digits.length = 10 then "+7" ++ String.mk digits
  else if digits.length = 11 then
    match digits with
    | d :: rest =>
        if d = '8' then "+7" ++ String.mk rest
        else if d = '7' then "+" ++ String.mk digits
        else "+" ++ String.mk digits
    | [] => "+" ++ String.mk digits
  else "+" ++ String.mk digits

/-- The `for pattern in self.PHONE_PATTERNS` loop of
`PhoneExtractor._extract_with_regex`: the first pattern with a match wins,
its match is stripped to digits (`re.sub(r"\D", "", phone)`) and
normalized; no match in any pattern gives `None`. -/
def extract_with_regex_list : List (List Tok) → List Char → Option String
  | [], _ => none
  | p :: ps, s =>
      match searchToks p s with
      | some m => some (normalize_digits (m.filter Char.isDigit))
      | none => extract_with_regex_list ps s

/-- `PhoneExtractor._extract_with_regex`. -/
def extract_with_regex (text : String) : Option String :=
  extract_with_regex_list PHONE_PATTERNS text.data

/-- `PhoneExtractor.extract`: a pure function of the message — no LLM client
is consulted — returning the regex result with fixed confidence 0.9 on a
match and 0.0 otherwise. -/
def phone_extractor_extract (message : String) : ExtractionResult :=
  match extract_with_regex message with
  | some phone =>
      { value := some phone, confidence := mkRat 9 10, reasoning := "Найден через regex" }
  | none =>
      { value := none, confidence := 0, reasoning := "Телефон не найден" }

/-- A string of the canonical form `+7XXXXXXXXXX`: 12 characters, the prefix
`+7`, and ten digits after it. -/
def isCanonicalPhone (s : String) : Prop :=
  s.length = 12 ∧ s.data.take 2 = ['+', '7'] ∧ (s.data.drop 2).all Char.isDigit = true

instance (s : String) : Decidable (isCanonicalPhone s) := by
  unfold isCanonicalPhone
  infer_instance

end AiSales

namespace AiSales

/-! ## Lead service (`app/services/avito/lead_service.py`)

`create_lead_from_conversation` is modelled over an environment carrying the
collaborators' responses (Redis dedup-cache content for this `chat_id`, the
qualification produced by `lead_qualifier.qualify_lead`, and the amoCRM
client's answers).  Alongside its return value the model records the ordered
list of CRM operations performed, so that "without calling the CRM" is a
statement about the trace.  Redis writes (`_cache_contact_id`) and logging
are not CRM operations and are not traced. -/

/-- A `{lead_id, status_id, contact_id?}` dedup-cache entry
(`avito:lead_created:{chat_id}`). -/
structure LeadCacheEntry where
  lead_id : Int
  status_id : Int
  contact_id : Option Int := none
deriving DecidableEq, Repr

/-- `AvitoLeadService._is_lead_already_created`, applied to the cache value
stored under this chat's key (`None` when absent or expired): on a hit it
returns `(True, lead_id, status_id)`, otherwise `(False, None, None)`.
Defined because it exists in the source; note that
`create_lead_from_conversation` never invokes it. -/
def is_lead_already_created (cache : Option LeadCacheEntry) :
    Bool × Option Int × Option Int :=
  match cache with
  | some e => (true, some e.lead_id, some e.status_id)
  | none => (false, none, none)

/-- An element of `find_leads_by_contact`'s answer. -/
structure CrmLead where
  id : Int
  status_id : Int
deriving DecidableEq, Repr

/-- `LeadCreateResult` (`app/models/crm.py` →
`LeadCreateResponse`): `lead_id`, optional `contact_id`, `success`,
`message`. -/
structure LeadCreateResult where
  lead_id : Int
  contact_id : Option Int := none
  success : Bool
  message : String
deriving DecidableEq, Repr

/-- One CRM operation, as issued by `create_lead_from_conversation`
(`find_contact_by_phone`, `find_leads_by_contact`, `update_lead_status`,
`add_note` via `save_conversation_to_amocrm`, and the lead-creating
`POST /api/v1/amocrm/leads`). -/
inductive CrmCall where
  | find_contact_by_phone (phone : String)
  | find_leads_by_contact (contact_id : Int)
  | update_lead_status (lead_id status_id : Int)
  | add_note (lead_id : Int)
  | create_lead_post
deriving DecidableEq, Repr

/-- String form of a stage (the `Literal` values), used in result
messages. -/
def stage_str : LeadStage → String
  | .first_contact => "first_contact"
  | .negotiation => "negotiation"
  | .decision => "decision"
  | .contract => "contract"

/-- Environment of one `create_lead_from_conversation` call: the configured
service token, the live dedup-cache entry for this chat (`none` when absent
or expired), the stage chosen by `lead_qualifier.qualify_lead` (whose
`status_id` is always `STAGE_TO_STATUS[stage]`), and the amoCRM client's
responses.  `create_response` is the parsed body of a 200 answer to the
lead-creation POST (`none` models a non-200 answer or a raised
exception). -/
structure LeadServiceEnv where
  service_token : Option String
  lead_cache : Option LeadCacheEntry
  qualification_stage : LeadStage
  find_contact_by_phone : String → Option Int
  find_leads_by_contact : Int → List CrmLead
  update_lead_status_ok : Bool
  create_response : Option LeadCreateResult

/-- The fall-through creation path of `create_lead_from_conversation`
(`POST /api/v1/amocrm/leads`, then `save_conversation_to_amocrm` when the
response carries a truthy `lead_id`).  `calls` are the CRM operations already
performed. -/
def create_new_lead_via_api (env : LeadServiceEnv) (calls : List CrmCall) :
    Option LeadCreateResult × List CrmCall :=
  match env.create_response with
  | some result =>
      let calls := calls ++ [CrmCall.create_lead_post]
      let calls :=
        if result.lead_id ≠ 0 then calls ++ [CrmCall.add_note result.lead_id]
        else calls
      (some result, calls)
  | none => (none, calls ++ [CrmCall.create_lead_post])

/-- The `search_phone = phone or f"avito_user_{chat_id[:8]}"` derivation at
the top of `create_lead_from_conversation` (Python `or`: a falsy — `None` or
empty — phone selects the placeholder). -/
def avito_search_phone (chat_id : String) (phone : Option String) : String :=
  match phone with
  | some p => if p.isEmpty then "avito_user_" ++ chat_id.take 8 else p
  | none => "avito_user_" ++ chat_id.take 8

/-- `AvitoLeadService.create_lead_from_conversation`.  Steps, as in the
source: bail out when no service token is configured; derive `search_phone`
(the phone when truthy, else the `avito_user_{chat_id[:8]}` placeholder);
qualify the dialogue; search the CRM for a contact; when a contact with an
active lead is found, advance its status iff `should_update_stage` allows and
attach a note on success; otherwise fall through to creating a new lead via
the API.  Contact and lead ids from the CRM are taken nonzero (a zero id
would be falsy in Python).  The dedup cache (`env.lead_cache`) is not
consulted anywhere in the method. -/
def create_lead_from_conversation (env : LeadServiceEnv)
    (chat_id user_name : String) (phone email product_interest : Option String)
    (budget : Option Int) (conversation_context : String) :
    Option LeadCreateResult × List CrmCall :=
  if ¬ optTruthy env.service_token then (none, [])
  else
    let search_phone := avito_search_phone chat_id phone
    let qualification_status_id := STAGE_TO_STATUS env.qualification_stage
    let calls : List CrmCall := [CrmCall.find_contact_by_phone search_phone]
    match env.find_contact_by_phone search_phone with
    | some contact_id =>
        let leads := env.find_leads_by_contact contact_id
        let calls := calls ++ [CrmCall.find_leads_by_contact contact_id]
        match leads with
        | existing_lead :: _ =>
            let lead_id := existing_lead.id
            let current_status_id := existing_lead.status_id
            if should_update_stage current_status_id qualification_status_id then
              let success := env.update_lead_status_ok
              let calls :=
                calls ++ [CrmCall.update_lead_status lead_id qualification_status_id]
              let calls :=
                if success then calls ++ [CrmCall.add_note lead_id] else calls
              (some { lead_id := lead_id, contact_id := some contact_id,
                      success := success,
                      message :=
                        if success then
                          "Лид обновлён: " ++ stage_str env.qualification_stage
                        else "Ошибка обновления" }, calls)
            else
              (some { lead_id := lead_id, contact_id := some contact_id,
                      success := true,
                      message := "Лид актуален, статус не изменён" }, calls)
        | [] => create_new_lead_via_api env calls
    | none => create_new_lead_via_api env calls

/-! ## Webhook handler and inbound route (`app/services/avito/webhook.py`,
`app/api/routes/avito.py`) -/

/-- The parsed `AvitoWebhookPayload` of the inbound route, reduced to the
fields the pipeline dispatches on. -/
structure WebhookPayload where
  event_type : String
  chat_id : String
  text : String
deriving DecidableEq, Repr

/-- `AvitoWebhookHandler.validate_signature`: a stub — it logs when the
signature is absent and returns `True` for every payload and every
signature (the source carries a `TODO` for the actual Avito signature
check). -/
def validate_signature (payload : WebhookPayload) (signature : Option String) :
    Bool :=
  true

/-- `AvitoWebhookHandler.add_to_queue`: `put_nowait` on the bounded
`asyncio.Queue`; `QueueFull` is caught and logged at error level — the event
is dropped, nothing is re-raised, and no counter of any kind is kept.
Returns the new queue and whether the event was dropped. -/
def add_to_queue (capacity : Nat) (queue : List WebhookPayload)
    (webhook_data : WebhookPayload) : List WebhookPayload × Bool :=
  if queue.length < capacity then (queue ++ [webhook_data], false)
  else (queue, true)

/-- The methods `AvitoWebhookHandler` defines (signature handling, queueing,
worker control, webhook registration).  `process_message` is not among
them. -/
def handler_method_names : List String :=
  ["validate_signature", "add_to_queue", "start_processing", "stop_processing",
   "register_webhook", "get_webhook_status", "unregister_webhook"]

/-- Attribute lookup on the module-level handler, as performed by
`_process_webhook_async` when it evaluates `_handler.process_message`. -/
def handler_has_method (name : String) : Bool :=
  handler_method_names.contains name

/-- The body of `await _handler.process_message(data)` inside
`_process_webhook_async`: the attribute lookup fails (`AvitoWebhookHandler`
defines no `process_message`), raising `AttributeError` before any
processing can happen; the `.ok` arm is unreachable and returns the queue
unchanged because no method body exists to give it other behavior. -/
def call_process_message (queue : List WebhookPayload) (data : WebhookPayload) :
    Except String (List WebhookPayload) :=
  if handler_has_method "process_message" then .ok queue
  else .error "AttributeError"

/-- `_process_webhook_async` (`app/api/routes/avito.py`): awaits
`_handler.process_message(data)` inside `try`/`except Exception`; the raised
`AttributeError` is caught and logged, leaving the handler state — in
particular the queue — untouched. -/
def process_webhook_async (queue : List WebhookPayload) (data : WebhookPayload) :
    List WebhookPayload :=
  match call_process_message queue data with
  | .ok q => q
  | .error _ => queue

/-- Outcome of the route: HTTP 200 with `{"status": "accepted"}` or the 403
`HTTPException`. -/
inductive RouteResponse where
  | accepted
  | forbidden
deriving DecidableEq, Repr

/-- `receive_avito_message` (`POST /webhooks/avito/messages`): validate the
signature — 403 on failure — then spawn `_process_webhook_async` on the
payload and answer 200 accepted.  Note the route dispatches to
`process_message`, never to `add_to_queue`. -/
def receive_avito_message (queue : List WebhookPayload)
    (payload : WebhookPayload) (x_signature : Option String) :
    RouteResponse × List WebhookPayload :=
  if validate_signature payload x_signature then
    (RouteResponse.accepted, process_webhook_async queue payload)
  else
    (RouteResponse.forbidden, queue)

end AiSales

namespace AiSales

/-! ## Digit bookkeeping for the phone patterns -/

/-- Number of digit characters a token always contributes to a match. -/
def tok_digit_count : Tok → Nat
  | .lit c => if c.isDigit then 1 else 0
  | .wsStar => 0
  | .optChar _ => 0
  | .digits n => n
  | .optDashWs => 0

/-- Tokens whose optional character is not a digit (true of every token the
phone patterns use). -/
def good_tok : Tok → Prop
  | .optChar c => c.isDigit = false
  | _ => True

/-- Digit strings the normalization branch turns into the canonical form:
either exactly ten digits, or eleven digits led by `7` or `8`. -/
def NormReady (ds : List Char) : Prop :=
  (ds.length = 10 ∧ ∀ x ∈ ds, x.isDigit = true) ∨
    (∃ tl, (ds = '7' :: tl ∨ ds = '8' :: tl) ∧ tl.length = 10 ∧
      ∀ x ∈ tl, x.isDigit = true)

end AiSales

namespace AiSales

/-! # Theorems -/

theorem status_to_stage_of_stage (s : LeadStage) :
    status_to_stage (STAGE_TO_STATUS s) = some s := by
  cases s <;> decide

/-- C7: `should_update_stage` is monotone over the fixed stage ordering: for
every pair of status ids that map to stages in the table, it returns `true`
iff the rank of the new stage is strictly greater than the rank of the
current stage; equal or lower ranks give `false`. -/
theorem should_update_stage_monotone
    (cur new : Int) (s₁ s₂ : LeadStage)
    (hcur : status_to_stage cur = some s₁)
    (hnew : status_to_stage new = some s₂) :
    should_update_stage cur new = true ↔ STAGE_ORDER s₂ > STAGE_ORDER s₁ := by
  simp [should_update_stage, hcur, hnew]

/-- Witness for C7: `first_contact → negotiation` advances,
`negotiation → first_contact` does not. -/
theorem should_update_stage_monotone_witness :
    should_update_stage 80984178 80984182 = true ∧
      ¬ should_update_stage 80984182 80984178 = true := by
  constructor
  · exact (should_update_stage_monotone 80984178 80984182
      .first_contact .negotiation (by decide) (by decide)).mpr (by decide)
  · intro h
    exact absurd ((should_update_stage_monotone 80984182 80984178
      .negotiation .first_contact (by decide) (by decide)).mp h) (by decide)

/-- C10: a status id missing from the fixed table makes `should_update_stage`
return `false` (the lead is never advanced), and, the function being total, no
exception is raised. -/
theorem should_update_stage_unknown_id_false
    (cur new : Int)
    (h : status_to_stage cur = none ∨ status_to_stage new = none) :
    should_update_stage cur new = false := by
  rcases h with h | h
  · simp [should_update_stage, h]
  · rcases hc : status_to_stage cur with _ | s <;>
      simp [should_update_stage, hc, h]

/-- Witness for C10: the unrecognized status id `12345` never advances a
lead, on either side of the comparison. -/
theorem should_update_stage_unknown_id_false_witness :
    should_update_stage 12345 80984182 = false ∧
      should_update_stage 80984178 12345 = false :=
  ⟨should_update_stage_unknown_id_false 12345 80984182 (Or.inl (by decide)),
   should_update_stage_unknown_id_false 80984178 12345 (Or.inr (by decide))⟩

/-! ## Helper lemmas on the extraction loop -/

theorem need_assign_ok (ctx : ConversationContext) (d : Option NeedPayload)
    (st' : ConversationContext × Option NeedPayload)
    (h : need_assign ctx d = .ok st') :
    ∃ p, d = some p ∧
      st' = ({ ctx with pain_point := p.pain_point,
                        product_interest := p.product_interest }, some p) := by
  cases d with
  | none => simp [need_assign] at h
  | some p =>
      refine ⟨p, rfl, ?_⟩
      simpa [need_assign] using h.symm

theorem process_task_ok_fields (s : Settings) (o : ExtractorOutcomes)
    (st st' : ConversationContext × Option NeedPayload) (t : TaskType)
    (h : process_task s o st t = .ok st') :
    st'.1.state = st.1.state ∧ st'.1.email = st.1.email ∧
      (t ≠ TaskType.name → st'.1.user_name = st.1.user_name) ∧
      (t ≠ TaskType.phone → st'.1.phone = st.1.phone) := by
  obtain ⟨ctx, data⟩ := st
  cases t
  · simp only [process_task] at h
    cases hn : o.name with
    | exn => rw [hn] at h; cases h; exact ⟨rfl, rfl, fun _ => rfl, fun _ => rfl⟩
    | res r =>
        rw [hn] at h
        obtain ⟨p, hd, hst⟩ := need_assign_ok _ _ _ h
        subst hst
        constructor
        · split <;> rfl
        · refine ⟨by split <;> rfl, fun hne => absurd rfl hne, fun _ => ?_⟩
          split <;> rfl
  · simp only [process_task] at h
    cases hn : o.phone with
    | exn => rw [hn] at h; cases h; exact ⟨rfl, rfl, fun _ => rfl, fun _ => rfl⟩
    | res r =>
        rw [hn] at h
        obtain ⟨p, hd, hst⟩ := need_assign_ok _ _ _ h
        subst hst
        refine ⟨by split <;> rfl, by split <;> rfl, fun _ => by split <;> rfl,
          fun hne => absurd rfl hne⟩
  · simp only [process_task] at h
    cases hn : o.need with
    | exn => rw [hn] at h; cases h; exact ⟨rfl, rfl, fun _ => rfl, fun _ => rfl⟩
    | res r =>
        rw [hn] at h
        obtain ⟨p, hd, hst⟩ := need_assign_ok _ _ _ h
        subst hst
        exact ⟨rfl, rfl, fun _ => rfl, fun _ => rfl⟩

theorem except_ok_bind {ε α β : Type} (a : α) (f : α → Except ε β) :
    ((Except.ok a : Except ε α) >>= f) = f a := rfl

theorem except_error_bind {ε α β : Type} (e : ε) (f : α → Except ε β) :
    ((Except.error e : Except ε α) >>= f) = Except.error e := rfl

theorem foldl_process_ok (s : Settings) (o : ExtractorOutcomes) :
    ∀ (ts : List TaskType) (st st' : ConversationContext × Option NeedPayload),
      List.foldlM (process_task s o) st ts = .ok st' →
      st'.1.state = st.1.state ∧ st'.1.email = st.1.email ∧
        (TaskType.name ∉ ts → st'.1.user_name = st.1.user_name) ∧
        (TaskType.phone ∉ ts → st'.1.phone = st.1.phone) := by
  intro ts
  induction ts with
  | nil =>
      intro st st' h
      simp only [List.foldlM_nil] at h
      cases h
      exact ⟨rfl, rfl, fun _ => rfl, fun _ => rfl⟩
  | cons t ts ih =>
      intro st st' h
      rw [List.foldlM_cons] at h
      cases hp : process_task s o st t with
      | error e => rw [hp, except_error_bind] at h; exact absurd h (by simp)
      | ok mid =>
          rw [hp, except_ok_bind] at h
          obtain ⟨h1, h2, h3, h4⟩ := ih mid st' h
          obtain ⟨g1, g2, g3, g4⟩ := process_task_ok_fields s o st mid t hp
          refine ⟨h1.trans g1, h2.trans g2, fun hn => ?_, fun hn => ?_⟩
          · rw [h3 fun hm => hn (List.mem_cons_of_mem _ hm),
              g3 fun he => hn (he ▸ List.mem_cons_self _ _)]
          · rw [h4 fun hm => hn (List.mem_cons_of_mem _ hm),
              g4 fun he => hn (he ▸ List.mem_cons_self _ _)]

theorem foldl_process_no_need (s : Settings) (o : ExtractorOutcomes) :
    ∀ (ts : List TaskType) (ctx : ConversationContext)
      (st' : ConversationContext × Option NeedPayload),
      TaskType.need ∉ ts →
      List.foldlM (process_task s o) (ctx, (none : Option NeedPayload)) ts =
        .ok st' →
      st' = (ctx, none) := by
  intro ts
  induction ts with
  | nil =>
      intro ctx st' _ h
      simp only [List.foldlM_nil] at h
      cases h
      rfl
  | cons t ts ih =>
      intro ctx st' hmem h
      rw [List.foldlM_cons] at h
      have ht : t ≠ TaskType.need := fun he => hmem (he ▸ List.mem_cons_self _ _)
      cases hp : process_task s o (ctx, none) t with
      | error e => rw [hp, except_error_bind] at h; exact absurd h (by simp)
      | ok mid =>
          rw [hp, except_ok_bind] at h
          have hmid : mid = (ctx, none) := by
            cases t
            · simp only [process_task] at hp
              cases hn : o.name with
              | exn => rw [hn] at hp; exact (Except.ok.inj hp).symm
              | res r => rw [hn] at hp; exact absurd hp (by simp [need_assign])
            · simp only [process_task] at hp
              cases hn : o.phone with
              | exn => rw [hn] at hp; exact (Except.ok.inj hp).symm
              | res r => rw [hn] at hp; exact absurd hp (by simp [need_assign])
            · exact absurd rfl ht
          rw [hmid] at h
          exact ih ctx st' (fun hm => hmem (List.mem_cons_of_mem _ hm)) h

theorem add_message_state (ctx : ConversationContext) (r : MessageRole)
    (text : String) : (add_message ctx r text).state = ctx.state := rfl

theorem try_extract_data_ok (s : Settings) (o : ExtractorOutcomes)
    (ctx ctx' : ConversationContext)
    (h : try_extract_data s o ctx = .ok ctx') :
    ctx'.state = ctx.state ∧ ctx'.email = ctx.email ∧
      (optTruthy ctx.user_name = true → ctx'.user_name = ctx.user_name) ∧
      (optTruthy ctx.phone = true → ctx'.phone = ctx.phone) ∧
      (optTruthy ctx.pain_point = true → ctx' = ctx) := by
  unfold try_extract_data at h
  cases hf : List.foldlM (process_task s o) (ctx, none) (extraction_tasks ctx) with
  | error e => rw [hf] at h; exact absurd h (by simp [Except.map])
  | ok st' =>
      rw [hf] at h
      have hc : ctx' = st'.1 := by simpa [Except.map] using h.symm
      obtain ⟨h1, h2, h3, h4⟩ := foldl_process_ok s o _ _ _ hf
      subst hc
      refine ⟨h1, h2, fun hu => h3 ?_, fun hp => h4 ?_, fun hpc => ?_⟩
      · simp [extraction_tasks, hu]
      · simp [extraction_tasks, hp]
      · have hnn : TaskType.need ∉ extraction_tasks ctx := by
          simp [extraction_tasks, hpc]
        have := foldl_process_no_need s o (extraction_tasks ctx) ctx st' hnn hf
        rw [this]

/-- C3 (amended): write-once holds for `user_name`, `phone`, `email` and
`pain_point` on every extraction pass that completes: a populated (truthy)
`user_name`, `phone` or `pain_point` keeps its value, and `email` — which no
extractor writes — is always preserved.  As stated the claim fails for
`product_interest`: the need extractor is skipped only when `pain_point` is
populated, so a populated `product_interest` alongside an empty `pain_point`
is overwritten (see the counterexample). -/
theorem extractors_write_once
    (s : Settings) (o : ExtractorOutcomes) (ctx ctx' : ConversationContext)
    (h : try_extract_data s o ctx = .ok ctx') :
    (optTruthy ctx.user_name = true → ctx'.user_name = ctx.user_name) ∧
      (optTruthy ctx.phone = true → ctx'.phone = ctx.phone) ∧
      ctx'.email = ctx.email ∧
      (optTruthy ctx.pain_point = true → ctx'.pain_point = ctx.pain_point) := by
  obtain ⟨h1, h2, h3, h4, h5⟩ := try_extract_data_ok s o ctx ctx' h
  exact ⟨h3, h4, h2, fun hp => by rw [h5 hp]⟩

/-- Witness for C3 (amended): a context with truthy `user_name` and `phone`
and empty `pain_point`; the need extractor succeeds and fills
`pain_point`/`product_interest` while the populated fields keep their
values. -/
theorem extractors_write_once_witness :
    try_extract_data {}
        { name := .exn, phone := .exn,
          need := .res { value := some { pain_point := some "slow reports",
                                         product_interest := some "AI bot" },
                         confidence := mkRat 9 10 } }
        { chat_id := "w3", state := .name_collected, user_name := some "Ivan",
          phone := some "+79991234567" } =
      .ok { chat_id := "w3", state := .name_collected,
            user_name := some "Ivan", phone := some "+79991234567",
            pain_point := some "slow reports",
            product_interest := some "AI bot" } ∧
      ((optTruthy (some "Ivan") = true →
          (some "Ivan" : Option String) = some "Ivan") ∧
        (optTruthy (some "+79991234567") = true →
          (some "+79991234567" : Option String) = some "+79991234567") ∧
        (none : Option String) = none ∧
        (optTruthy (none : Option String) = true →
          (some "slow reports" : Option String) = none)) := by
  have h : try_extract_data {}
      { name := .exn, phone := .exn,
        need := .res { value := some { pain_point := some "slow reports",
                                       product_interest := some "AI bot" },
                       confidence := mkRat 9 10 } }
      { chat_id := "w3", state := .name_collected, user_name := some "Ivan",
        phone := some "+79991234567" } =
      .ok { chat_id := "w3", state := .name_collected,
            user_name := some "Ivan", phone := some "+79991234567",
            pain_point := some "slow reports",
            product_interest := some "AI bot" } := by rfl
  exact ⟨h, extractors_write_once {} _ _ _ h⟩

/-- Counterexample to C3 as stated: `product_interest` is populated
(`"CRM bot"`) while `pain_point` is empty; a single later extraction pass
with a successful need extraction overwrites it with `"AI assistant"`. -/
theorem extractors_write_once_counterexample :
    optTruthy (ConversationContext.product_interest
        { chat_id := "c3", state := .need_identified,
          user_name := some "Ivan", phone := some "+79991234567",
          product_interest := some "CRM bot" }) = true ∧
      (try_extract_data {}
            { name := .exn, phone := .exn,
              need := .res { value := some { pain_point := some "manual reports",
                                             product_interest := some "AI assistant" },
                             confidence := mkRat 9 10 } }
            { chat_id := "c3", state := .need_identified,
              user_name := some "Ivan", phone := some "+79991234567",
              product_interest := some "CRM bot" }).map
          (fun c => c.product_interest) = .ok (some "AI assistant") ∧
      (some "AI assistant" : Option String) ≠ some "CRM bot" := by
  refine ⟨rfl, by rfl, by simp⟩

/-- C2 (code bug), evaluated at the failing input: a fresh context and the
message "89991234567".  The name and need extractors return failed results
(treated as confidence 0.0, exactly the degraded outcome the claim
describes), the phone extractor returns its real, successful result for this
message — and `_try_extract_data` still raises `UnboundLocalError` on the
very first iteration (the mis-indented `context.pain_point =
data.get("pain_point")` executes with `data` unbound), so `handle_message`
propagates the exception and returns no reply at all. -/
theorem handle_message_aborts_turn_on_extraction :
    try_extract_data {}
        { name := .res { value := none, confidence := 0,
                         reasoning := "OpenAI недоступен" },
          phone := .res (phone_extractor_extract "89991234567"),
          need := .res { value := none, confidence := 0 } }
        (add_message { chat_id := "chat1" } .user "89991234567") =
      .error () ∧
      handle_message {}
          { name := .res { value := none, confidence := 0,
                           reasoning := "OpenAI недоступен" },
            phone := .res (phone_extractor_extract "89991234567"),
            need := .res { value := none, confidence := 0 } }
          "fallback" { chat_id := "chat1" } "89991234567" =
        .error () ∧
      (phone_extractor_extract "89991234567").value = some "+79991234567" := by
  exact ⟨rfl, rfl, rfl⟩

/-- `_update_state`'s step function only takes table edges and never lowers
the rank (checked over the finite state/flag space). -/
theorem update_state_fn_table :
    ∀ (s : ConversationState) (pain name phone : Bool),
      table_step s (update_state_fn s pain name phone) pain name phone ∧
        state_rank s ≤ state_rank (update_state_fn s pain name phone) := by
  decide

/-- Inversion of a successful `handle_message` turn: the extraction pass
succeeded and did not change the state; the final state is QUALIFIED when it
just became PHONE_COLLECTED, and the `_update_state` result otherwise. -/
theorem handle_message_ok_inv (s : Settings) (o : ExtractorOutcomes)
    (g : String) (ctx₀ : ConversationContext) (msg : String)
    (ctx' : ConversationContext) (r : String)
    (h : handle_message s o g ctx₀ msg = .ok (ctx', r)) :
    ∃ ctx₁ : ConversationContext,
      try_extract_data s o (add_message ctx₀ .user msg) = .ok ctx₁ ∧
        ctx₁.state = ctx₀.state ∧
        ((¬ ctx₀.state = ConversationState.phone_collected ∧
            (update_state ctx₁).state = ConversationState.phone_collected ∧
            ctx'.state = ConversationState.qualified) ∨
          (¬ (¬ ctx₀.state = ConversationState.phone_collected ∧
                (update_state ctx₁).state = ConversationState.phone_collected) ∧
            ctx'.state = (update_state ctx₁).state)) := by
  unfold handle_message at h
  dsimp only at h
  cases ht : try_extract_data s o (add_message ctx₀ .user msg) with
  | error e => rw [ht, except_error_bind] at h; exact absurd h (by simp)
  | ok ctx₁ =>
      rw [ht, except_ok_bind] at h
      refine ⟨ctx₁, rfl,
        (try_extract_data_ok s o _ _ ht).1.trans
          (add_message_state ctx₀ .user msg), ?_⟩
      by_cases hc : ¬ (add_message ctx₀ MessageRole.user msg).state =
            ConversationState.phone_collected ∧
          (update_state ctx₁).state = ConversationState.phone_collected
      · rw [if_pos hc] at h
        obtain ⟨h1, h2⟩ := Prod.mk.injEq .. ▸ Except.ok.inj h
        exact Or.inl ⟨hc.1, hc.2, by rw [← h1]; rfl⟩
      · rw [if_neg hc] at h
        obtain ⟨h1, h2⟩ := Prod.mk.injEq .. ▸ Except.ok.inj h
        exact Or.inr ⟨hc, by rw [← h1]; rfl⟩

/-- C4: for every context, `_update_state` only moves along the §4.3
transition table (GREETING → NEED_IDENTIFIED being an edge of the table) and
never lowers the state rank; and every successful `handle_message` turn
decomposes into one table edge of `_update_state` followed by a second table
edge (the same-turn PHONE_COLLECTED → QUALIFIED jump, or no transition), so
the state never regresses. -/
theorem fsm_follows_transition_table :
    (∀ ctx : ConversationContext,
        table_step ctx.state (update_state ctx).state
            (optTruthy ctx.pain_point) (optTruthy ctx.user_name)
            (optTruthy ctx.phone) ∧
          state_rank ctx.state ≤ state_rank (update_state ctx).state) ∧
      ∀ (s : Settings) (o : ExtractorOutcomes) (g : String)
        (ctx₀ : ConversationContext) (msg : String)
        (ctx' : ConversationContext) (r : String),
        handle_message s o g ctx₀ msg = .ok (ctx', r) →
        ∃ (mid : ConversationState) (pain name phone : Bool),
          table_step ctx₀.state mid pain name phone ∧
            table_step mid ctx'.state pain name phone ∧
            state_rank ctx₀.state ≤ state_rank ctx'.state := by
  constructor
  · intro ctx
    exact update_state_fn_table ctx.state _ _ _
  · intro s o g ctx₀ msg ctx' r h
    obtain ⟨ctx₁, ht, hs, hcase⟩ := handle_message_ok_inv s o g ctx₀ msg ctx' r h
    refine ⟨(update_state ctx₁).state, optTruthy ctx₁.pain_point,
      optTruthy ctx₁.user_name, optTruthy ctx₁.phone, ?_, ?_, ?_⟩
    · rw [← hs]
      exact (update_state_fn_table ctx₁.state _ _ _).1
    · rcases hcase with ⟨hne, hpc, hq⟩ | ⟨hnc, heq⟩
      · rw [hpc, hq]
        simp [table_step]
      · rw [heq]
        exact Or.inl rfl
    · rcases hcase with ⟨hne, hpc, hq⟩ | ⟨hnc, heq⟩
      · rw [hq]
        have hall : ∀ st, state_rank st ≤ state_rank ConversationState.qualified := by
          decide
        exact hall _
      · rw [heq, ← hs]
        exact (update_state_fn_table ctx₁.state _ _ _).2

/-- Witness for C4: a concrete first turn (all extractors failing) moves
START → GREETING along the table. -/
theorem fsm_follows_transition_table_witness :
    handle_message {} { name := .exn, phone := .exn, need := .exn } "privet"
        { chat_id := "c4" } "hello" =
      .ok ({ chat_id := "c4", state := .greeting,
             messages := [(.user, "hello"), (.bot, "privet")] }, "privet") ∧
      ∃ (mid : ConversationState) (pain name phone : Bool),
        table_step ConversationState.start mid pain name phone ∧
          table_step mid ConversationState.greeting pain name phone ∧
          state_rank ConversationState.start ≤
            state_rank ConversationState.greeting := by
  have h : handle_message {} { name := .exn, phone := .exn, need := .exn }
      "privet" { chat_id := "c4" } "hello" =
      .ok ({ chat_id := "c4", state := .greeting,
             messages := [(.user, "hello"), (.bot, "privet")] }, "privet") := by
    rfl
  exact ⟨h, fsm_follows_transition_table.2 {} _ "privet" _ "hello" _ "privet" h⟩

/-- C9: the state-update function applies at most one transition per
processed message: from GREETING with `user_name`, `pain_point` and `phone`
all populated, a single `_update_state` call yields NEED_IDENTIFIED, not
PHONE_COLLECTED; and no two `handle_message` turns starting at START can
reach QUALIFIED, whatever the extraction outcomes — at least three inbound
messages are needed. -/
theorem update_state_single_step :
    (∀ ctx : ConversationContext, ctx.state = ConversationState.greeting →
        optTruthy ctx.user_name = true → optTruthy ctx.pain_point = true →
        optTruthy ctx.phone = true →
        (update_state ctx).state = ConversationState.need_identified) ∧
      ∀ (s₁ s₂ : Settings) (o₁ o₂ : ExtractorOutcomes) (g₁ g₂ m₁ m₂ : String)
        (ctx₀ : ConversationContext),
        ctx₀.state = ConversationState.start →
        ((handle_message s₁ o₁ g₁ ctx₀ m₁).bind fun p =>
            handle_message s₂ o₂ g₂ p.1 m₂).toOption.map
            (fun p => p.1.state) ≠ some ConversationState.qualified := by
  constructor
  · intro ctx hst hn hp hph
    show update_state_fn ctx.state (optTruthy ctx.pain_point)
        (optTruthy ctx.user_name) (optTruthy ctx.phone) =
      ConversationState.need_identified
    rw [hst, hp, hn, hph]
    rfl
  · intro s₁ s₂ o₁ o₂ g₁ g₂ m₁ m₂ ctx₀ h0
    cases h1 : handle_message s₁ o₁ g₁ ctx₀ m₁ with
    | error e => simp [Except.bind, Except.toOption]
    | ok p =>
        obtain ⟨c₁, r₁⟩ := p
        obtain ⟨ctxA, htA, hsA, hcaseA⟩ :=
          handle_message_ok_inv s₁ o₁ g₁ ctx₀ m₁ c₁ r₁ h1
        have hupA : (update_state ctxA).state = ConversationState.greeting := by
          show update_state_fn ctxA.state (optTruthy ctxA.pain_point)
              (optTruthy ctxA.user_name) (optTruthy ctxA.phone) =
            ConversationState.greeting
          rw [hsA, h0]
          rfl
        have hc1 : c₁.state = ConversationState.greeting := by
          rcases hcaseA with ⟨hne, hpc, hq⟩ | ⟨hnc, heq⟩
          · rw [hupA] at hpc
            exact absurd hpc (by decide)
          · rw [heq, hupA]
        cases h2 : handle_message s₂ o₂ g₂ c₁ m₂ with
        | error e => simp [h1, h2, Except.bind, Except.toOption]
        | ok q =>
            obtain ⟨c₂, r₂⟩ := q
            obtain ⟨ctxB, htB, hsB, hcaseB⟩ :=
              handle_message_ok_inv s₂ o₂ g₂ c₁ m₂ c₂ r₂ h2
            have hmidB : (update_state ctxB).state =
                update_state_fn ConversationState.greeting
                  (optTruthy ctxB.pain_point) (optTruthy ctxB.user_name)
                  (optTruthy ctxB.phone) := by
              show update_state_fn ctxB.state (optTruthy ctxB.pain_point)
                  (optTruthy ctxB.user_name) (optTruthy ctxB.phone) = _
              rw [hsB, hc1]
            have hnpc : ∀ pa na ph, update_state_fn ConversationState.greeting
                pa na ph ≠ ConversationState.phone_collected := by decide
            have hnq : ∀ pa na ph, update_state_fn ConversationState.greeting
                pa na ph ≠ ConversationState.qualified := by decide
            have hc2 : c₂.state ≠ ConversationState.qualified := by
              rcases hcaseB with ⟨hne, hpc, hq⟩ | ⟨hnc, heq⟩
              · rw [hmidB] at hpc
                exact absurd hpc (hnpc _ _ _)
              · rw [heq, hmidB]
                exact hnq _ _ _
            simp [h1, h2, Except.bind, Except.toOption]
            exact hc2

/-- Witness for C9: the concrete GREETING context with all three fields
populated steps to NEED_IDENTIFIED, and a concrete two-turn run from START
does not reach QUALIFIED. -/
theorem update_state_single_step_witness :
    (update_state
          { chat_id := "w9", state := .greeting, user_name := some "Ivan",
            phone := some "+79991234567",
            pain_point := some "slow crm" }).state =
      ConversationState.need_identified ∧
      ((handle_message {} { name := .exn, phone := .exn, need := .exn } "hi"
            { chat_id := "w9b" } "msg1").bind fun p =>
          handle_message {} { name := .exn, phone := .exn, need := .exn } "hi"
            p.1 "msg2").toOption.map (fun p => p.1.state) ≠
        some ConversationState.qualified :=
  ⟨update_state_single_step.1 _ rfl rfl rfl rfl,
   update_state_single_step.2 {} {} _ _ "hi" "hi" "msg1" "msg2" _ rfl⟩

/-- Counterexample to C1: with a live dedup-cache entry (`lead_id = 42`) for
the chat, `create_lead_from_conversation` still calls the CRM (contact
search, then the creation POST) and, the contact search missing, creates a
fresh lead (`lead_id = 99`) instead of returning the cached 42: the method
never consults the cache. -/
theorem create_lead_ignores_cache_counterexample :
    is_lead_already_created (some { lead_id := 42, status_id := 80984178 }) =
      (true, some 42, some 80984178) ∧
      create_lead_from_conversation
          { service_token := some "token",
            lead_cache := some { lead_id := 42, status_id := 80984178 },
            qualification_stage := .first_contact,
            find_contact_by_phone := fun _ => none,
            find_leads_by_contact := fun _ => [],
            update_lead_status_ok := true,
            create_response := some { lead_id := 99, contact_id := some 7,
                                      success := true, message := "done" } }
          "chat42" "Ivan" (some "+79991234567") none none none "ctx" =
        (some { lead_id := 99, contact_id := some 7, success := true,
                message := "done" },
          [CrmCall.find_contact_by_phone "+79991234567",
            CrmCall.create_lead_post, CrmCall.add_note 99]) ∧
      (99 : Int) ≠ 42 := by
  exact ⟨rfl, rfl, by decide⟩

/-- C1 (amended): `create_lead_from_conversation` performs no dedup-cache
check: `_is_lead_already_created` is never invoked and the result is
independent of the cache content (first conjunct).  Duplicate protection
relies on the CRM search instead: whenever the contact search succeeds and
the contact owns a lead in the pipeline, no creation POST is issued — the
existing lead is updated or left untouched (second conjunct). -/
theorem create_lead_no_cache_read_and_search_dedup
    (env : LeadServiceEnv) (cache : Option LeadCacheEntry)
    (chat_id user_name : String) (phone email product_interest : Option String)
    (budget : Option Int) (conversation_context : String) :
    (create_lead_from_conversation { env with lead_cache := cache } chat_id
        user_name phone email product_interest budget conversation_context =
      create_lead_from_conversation env chat_id user_name phone email
        product_interest budget conversation_context) ∧
    (∀ (contact_id : Int) (lead : CrmLead) (rest : List CrmLead),
      env.find_contact_by_phone (avito_search_phone chat_id phone) =
          some contact_id →
      env.find_leads_by_contact contact_id = lead :: rest →
      CrmCall.create_lead_post ∉
        (create_lead_from_conversation env chat_id user_name phone email
          product_interest budget conversation_context).2) := by
  constructor
  · cases env
    rfl
  · intro contact_id lead rest hfc hfl
    unfold create_lead_from_conversation
    by_cases htok : optTruthy env.service_token
    · simp only [htok, not_true_eq_false, if_false]
      rw [hfc]
      simp only []
      rw [hfl]
      dsimp only
      by_cases hsu : should_update_stage lead.status_id
          (STAGE_TO_STATUS env.qualification_stage) = true
      · rw [if_pos hsu]
        split_ifs <;> simp
      · rw [if_neg hsu]
        simp
    · simp [htok]

/-- Witness for C1 (amended): a concrete environment whose contact search
finds contact 7 with an existing lead 42; the cache content is irrelevant
and no creation POST appears in the trace. -/
theorem create_lead_no_cache_read_and_search_dedup_witness :
    (create_lead_from_conversation
        { service_token := some "t",
          lead_cache := some { lead_id := 42, status_id := 80984178 },
          qualification_stage := .negotiation,
          find_contact_by_phone := fun _ => some 7,
          find_leads_by_contact := fun _ => [{ id := 42, status_id := 80984178 }],
          update_lead_status_ok := true, create_response := none }
        "c" "Ivan" none none none none "" =
      create_lead_from_conversation
        { service_token := some "t", lead_cache := none,
          qualification_stage := .negotiation,
          find_contact_by_phone := fun _ => some 7,
          find_leads_by_contact := fun _ => [{ id := 42, status_id := 80984178 }],
          update_lead_status_ok := true, create_response := none }
        "c" "Ivan" none none none none "") ∧
      CrmCall.create_lead_post ∉
        (create_lead_from_conversation
          { service_token := some "t", lead_cache := none,
            qualification_stage := .negotiation,
            find_contact_by_phone := fun _ => some 7,
            find_leads_by_contact := fun _ => [{ id := 42, status_id := 80984178 }],
            update_lead_status_ok := true, create_response := none }
          "c" "Ivan" none none none none "").2 :=
  ⟨(create_lead_no_cache_read_and_search_dedup
      { service_token := some "t", lead_cache := none,
        qualification_stage := .negotiation,
        find_contact_by_phone := fun _ => some 7,
        find_leads_by_contact := fun _ => [{ id := 42, status_id := 80984178 }],
        update_lead_status_ok := true, create_response := none }
      (some { lead_id := 42, status_id := 80984178 })
      "c" "Ivan" none none none none "").1,
   (create_lead_no_cache_read_and_search_dedup
      { service_token := some "t", lead_cache := none,
        qualification_stage := .negotiation,
        find_contact_by_phone := fun _ => some 7,
        find_leads_by_contact := fun _ => [{ id := 42, status_id := 80984178 }],
        update_lead_status_ok := true, create_response := none }
      none "c" "Ivan" none none none none "").2 7
      { id := 42, status_id := 80984178 } [] rfl rfl⟩

/-- C5 (code bug), evaluated at the failing input: a parsed, signature-checked
`message.new` event.  The route accepts it (200) but the queue stays empty —
the background task dispatches to `process_message`, which
`AvitoWebhookHandler` does not define, so the call dies with
`AttributeError` (caught and logged) and the payload is never enqueued.
`add_to_queue` itself — which nothing in the route calls — does enqueue below
capacity and does drop on a full queue without raising, but no drop counter
exists anywhere in the handler. -/
theorem accepted_event_never_enqueued :
    handler_has_method "process_message" = false ∧
      receive_avito_message []
          { event_type := "message.new", chat_id := "c5", text := "hi" } none =
        (RouteResponse.accepted, []) ∧
      add_to_queue 1000 []
          { event_type := "message.new", chat_id := "c5", text := "hi" } =
        ([{ event_type := "message.new", chat_id := "c5", text := "hi" }],
          false) ∧
      add_to_queue 2
          [{ event_type := "message.new", chat_id := "a", text := "" },
            { event_type := "message.new", chat_id := "b", text := "" }]
          { event_type := "message.new", chat_id := "c5", text := "hi" } =
        ([{ event_type := "message.new", chat_id := "a", text := "" },
            { event_type := "message.new", chat_id := "b", text := "" }],
          true) := by
  exact ⟨rfl, rfl, rfl, rfl⟩

/-- Counterexample to C6: a request carrying a signature that matches no
configured scheme ("deadbeef" — no verification logic exists at all) is not
rejected: `validate_signature` returns `True` and the endpoint answers 200
accepted, never 403. -/
theorem signature_mismatch_not_rejected :
    validate_signature
        { event_type := "message.new", chat_id := "c6", text := "hi" }
        (some "deadbeef") = true ∧
      (receive_avito_message []
          { event_type := "message.new", chat_id := "c6", text := "hi" }
          (some "deadbeef")).1 = RouteResponse.accepted :=
  ⟨rfl, rfl⟩

/-- C6 (amended): the signature check is a stub: `validate_signature`
accepts every payload/signature pair — with or without a signature — so the
endpoint's 403 branch is unreachable and every parsed request is answered
`accepted`. -/
theorem validate_signature_accepts_everything
    (payload : WebhookPayload) (signature : Option String)
    (queue : List WebhookPayload) :
    validate_signature payload signature = true ∧
      (receive_avito_message queue payload signature).1 =
        RouteResponse.accepted :=
  ⟨rfl, rfl⟩

/-! ## Phone extractor lemmas -/

theorem isWs_not_digit (c : Char) (h : isWs c = true) : c.isDigit = false := by
  simp only [isWs, decide_eq_true_eq] at h
  rcases h with rfl | rfl | rfl | rfl | rfl | rfl <;> decide

theorem matchTok_count (t : Tok) (hg : good_tok t) :
    ∀ s c r, matchTok t s = some (c, r) →
      (c.filter Char.isDigit).length = tok_digit_count t := by
  cases t with
  | lit ch =>
      intro s c r h
      cases s with
      | nil => simp [matchTok] at h
      | cons x xs =>
          simp only [matchTok] at h
          by_cases hx : x = ch
          · rw [if_pos hx] at h
            obtain ⟨hc, -⟩ := Prod.mk.injEq .. ▸ Option.some.inj h
            subst hx
            rw [← hc]
            by_cases hd : x.isDigit <;>
              simp [tok_digit_count, List.filter, hd]
          · rw [if_neg hx] at h
            exact absurd h (by simp)
  | wsStar =>
      intro s c r h
      simp only [matchTok] at h
      obtain ⟨hc, -⟩ := Prod.mk.injEq .. ▸ Option.some.inj h
      have hnil : c.filter Char.isDigit = [] := by
        refine List.filter_eq_nil_iff.mpr fun x hx => ?_
        rw [← hc] at hx
        simp [isWs_not_digit x (List.mem_takeWhile_imp hx)]
      simp [hnil, tok_digit_count]
  | optChar ch =>
      intro s c r h
      have hnotd : ch.isDigit = false := hg
      cases s with
      | nil =>
          simp only [matchTok] at h
          obtain ⟨hc, -⟩ := Prod.mk.injEq .. ▸ Option.some.inj h
          simp [← hc, tok_digit_count]
      | cons x xs =>
          simp only [matchTok] at h
          by_cases hx : x = ch
          · rw [if_pos hx] at h
            obtain ⟨hc, -⟩ := Prod.mk.injEq .. ▸ Option.some.inj h
            subst hx
            simp [← hc, tok_digit_count, List.filter, hnotd]
          · rw [if_neg hx] at h
            obtain ⟨hc, -⟩ := Prod.mk.injEq .. ▸ Option.some.inj h
            simp [← hc, tok_digit_count]
  | digits n =>
      intro s c r h
      simp only [matchTok] at h
      by_cases hd : (s.take n).length = n ∧ (s.take n).all Char.isDigit
      · rw [if_pos hd] at h
        obtain ⟨hc, -⟩ := Prod.mk.injEq .. ▸ Option.some.inj h
        have hself : c.filter Char.isDigit = c := by
          refine List.filter_eq_self.mpr fun x hx => ?_
          rw [← hc] at hx
          exact (List.all_eq_true.mp hd.2) x hx
        rw [hself, ← hc, hd.1]
        rfl
      · rw [if_neg hd] at h
        exact absurd h (by simp)
  | optDashWs =>
      intro s c r h
      cases s with
      | nil =>
          simp only [matchTok] at h
          obtain ⟨hc, -⟩ := Prod.mk.injEq .. ▸ Option.some.inj h
          simp [← hc, tok_digit_count]
      | cons x xs =>
          simp only [matchTok] at h
          by_cases hx : x = '-' ∨ isWs x = true
          · rw [if_pos hx] at h
            obtain ⟨hc, -⟩ := Prod.mk.injEq .. ▸ Option.some.inj h
            have hnd : x.isDigit = false := by
              rcases hx with rfl | hw
              · decide
              · exact isWs_not_digit x hw
            simp [← hc, tok_digit_count, List.filter, hnd]
          · rw [if_neg hx] at h
            obtain ⟨hc, -⟩ := Prod.mk.injEq .. ▸ Option.some.inj h
            simp [← hc, tok_digit_count]

theorem matchToks_count :
    ∀ (ts : List Tok), (∀ t ∈ ts, good_tok t) →
      ∀ s c r, matchToks ts s = some (c, r) →
        (c.filter Char.isDigit).length = (ts.map tok_digit_count).sum := by
  intro ts
  induction ts with
  | nil =>
      intro _ s c r h
      simp only [matchToks] at h
      obtain ⟨hc, -⟩ := Prod.mk.injEq .. ▸ Option.some.inj h
      simp [← hc]
  | cons t ts ih =>
      intro hg s c r h
      simp only [matchToks] at h
      cases h1 : matchTok t s with
      | none => rw [h1] at h; exact absurd h (by simp)
      | some p =>
          obtain ⟨c₁, r₁⟩ := p
          rw [h1] at h
          dsimp only at h
          cases h2 : matchToks ts r₁ with
          | none => rw [h2] at h; exact absurd h (by simp)
          | some q =>
              obtain ⟨c₂, r₂⟩ := q
              rw [h2] at h
              obtain ⟨hc, -⟩ := Prod.mk.injEq .. ▸ Option.some.inj h
              rw [← hc, List.filter_append, List.length_append,
                matchTok_count t (hg t (List.mem_cons_self _ _)) s c₁ r₁ h1,
                ih (fun u hu => hg u (List.mem_cons_of_mem _ hu)) r₁ c₂ r₂ h2,
                List.map_cons, List.sum_cons]

theorem matchToks_lit_cons (ch : Char) (ts : List Tok) (s c r : List Char)
    (h : matchToks (.lit ch :: ts) s = some (c, r)) :
    ∃ c₂ r₁, c = ch :: c₂ ∧ matchToks ts r₁ = some (c₂, r) := by
  simp only [matchToks] at h
  cases s with
  | nil => simp [matchTok] at h
  | cons x xs =>
      simp only [matchTok] at h
      by_cases hx : x = ch
      · rw [if_pos hx] at h
        dsimp only at h
        cases h2 : matchToks ts xs with
        | none => rw [h2] at h; exact absurd h (by simp)
        | some q =>
            obtain ⟨c₂, r₂⟩ := q
            rw [h2] at h
            obtain ⟨hc, hr⟩ := Prod.mk.injEq .. ▸ Option.some.inj h
            exact ⟨c₂, xs, by rw [← hc, hx]; rfl, by rw [h2, hr]⟩
      · rw [if_neg hx] at h
        exact absurd h (by simp)

theorem core_pattern_digits (s c r : List Char)
    (h : matchToks core_pattern s = some (c, r)) :
    (c.filter Char.isDigit).length = 10 := by
  have hg : ∀ t ∈ core_pattern, good_tok t := by
    intro t ht
    simp only [core_pattern, List.mem_cons, List.not_mem_nil, or_false] at ht
    rcases ht with rfl | rfl | rfl | rfl | rfl | rfl | rfl | rfl | rfl | rfl <;>
      trivial
  have := matchToks_count core_pattern hg s c r h
  rw [this]
  rfl

theorem filter_digits_of_core (c : List Char) :
    ∀ x ∈ c.filter Char.isDigit, x.isDigit = true :=
  fun _ hx => List.of_mem_filter hx

theorem pattern_lit_core_norm_ready (ch : Char) (hch : ch = '7' ∨ ch = '8')
    (s c r : List Char)
    (h : matchToks (Tok.lit ch :: core_pattern) s = some (c, r)) :
    NormReady (c.filter Char.isDigit) := by
  obtain ⟨c₂, r₁, hc, h2⟩ := matchToks_lit_cons ch core_pattern s c r h
  subst hc
  have hd : ch.isDigit = true := by rcases hch with rfl | rfl <;> decide
  have hfe : (ch :: c₂).filter Char.isDigit = ch :: c₂.filter Char.isDigit := by
    simp [List.filter_cons, hd]
  right
  refine ⟨c₂.filter Char.isDigit, ?_, core_pattern_digits r₁ c₂ r h2,
    filter_digits_of_core c₂⟩
  rw [hfe]
  rcases hch with rfl | rfl
  · exact Or.inl rfl
  · exact Or.inr rfl

theorem pattern1_norm_ready (s c r : List Char)
    (h : matchToks ([Tok.lit '+', Tok.lit '7'] ++ core_pattern) s =
      some (c, r)) :
    NormReady (c.filter Char.isDigit) := by
  obtain ⟨c₂, r₁, hc, h2⟩ := matchToks_lit_cons '+' _ s c r h
  subst hc
  have hfe : ('+' :: c₂).filter Char.isDigit = c₂.filter Char.isDigit := by
    simp [List.filter_cons, (by decide : ('+' : Char).isDigit = false)]
  rw [hfe]
  exact pattern_lit_core_norm_ready '7' (Or.inl rfl) r₁ c₂ r h2

theorem pattern4_norm_ready (s c r : List Char)
    (h : matchToks [Tok.digits 10] s = some (c, r)) :
    NormReady (c.filter Char.isDigit) := by
  left
  constructor
  · have hg : ∀ t ∈ [Tok.digits 10], good_tok t := by
      intro t ht
      simp only [List.mem_singleton] at ht
      subst ht
      trivial
    have := matchToks_count [Tok.digits 10] hg s c r h
    rw [this]
    rfl
  · exact filter_digits_of_core c

theorem canonical_of_plus7 (ds : List Char) (h10 : ds.length = 10)
    (hall : ∀ x ∈ ds, x.isDigit = true) :
    isCanonicalPhone (("+7" : String) ++ String.mk ds) := by
  have hdata : (("+7" : String) ++ String.mk ds).data = '+' :: '7' :: ds := by
    simp [String.data_append]
  refine ⟨?_, ?_, ?_⟩
  · show (("+7" : String) ++ String.mk ds).data.length = 12
    rw [hdata]
    simp [h10]
  · rw [hdata]
    rfl
  · rw [hdata]
    exact List.all_eq_true.mpr hall

theorem canonical_of_plus_head7 (tl : List Char) (h10 : tl.length = 10)
    (hall : ∀ x ∈ tl, x.isDigit = true) :
    isCanonicalPhone (("+" : String) ++ String.mk ('7' :: tl)) := by
  have hdata : (("+" : String) ++ String.mk ('7' :: tl)).data =
      '+' :: '7' :: tl := by
    simp [String.data_append]
  refine ⟨?_, ?_, ?_⟩
  · show (("+" : String) ++ String.mk ('7' :: tl)).data.length = 12
    rw [hdata]
    simp [h10]
  · rw [hdata]
    rfl
  · rw [hdata]
    exact List.all_eq_true.mpr hall

theorem normalize_digits_canonical (ds : List Char) (h : NormReady ds) :
    isCanonicalPhone (normalize_digits ds) := by
  rcases h with ⟨h10, hall⟩ | ⟨tl, hds, h10, hall⟩
  · unfold normalize_digits
    rw [if_pos h10]
    exact canonical_of_plus7 ds h10 hall
  · have h11 : ds.length = 11 := by rcases hds with rfl | rfl <;> simp [h10]
    have hne : ¬ ds.length = 10 := by rw [h11]; decide
    unfold normalize_digits
    rw [if_neg hne, if_pos h11]
    rcases hds with rfl | rfl
    · dsimp only
      rw [if_neg (by decide : ¬ ('7' : Char) = '8'),
        if_pos (rfl : ('7' : Char) = '7')]
      exact canonical_of_plus_head7 tl h10 hall
    · dsimp only
      rw [if_pos (rfl : ('8' : Char) = '8')]
      exact canonical_of_plus7 tl h10 hall

theorem searchToks_some (toks : List Tok) :
    ∀ (s m : List Char), searchToks toks s = some m →
      ∃ s' r, matchToks toks s' = some (m, r) := by
  intro s
  induction s with
  | nil =>
      intro m h
      simp only [searchToks] at h
      cases hm : matchToks toks [] with
      | none => rw [hm] at h; exact absurd h (by simp)
      | some p =>
          obtain ⟨c, r⟩ := p
          rw [hm] at h
          simp only [Option.map_some'] at h
          refine ⟨[], r, ?_⟩
          rw [hm, Option.some.inj h]
  | cons x xs ih =>
      intro m h
      simp only [searchToks] at h
      cases hm : matchToks toks (x :: xs) with
      | none => rw [hm] at h; exact ih m h
      | some p =>
          obtain ⟨c, r⟩ := p
          rw [hm] at h
          refine ⟨x :: xs, r, ?_⟩
          rw [hm, Option.some.inj h]

theorem phone_patterns_norm_ready :
    ∀ p ∈ PHONE_PATTERNS, ∀ s c r, matchToks p s = some (c, r) →
      NormReady (c.filter Char.isDigit) := by
  intro p hp
  simp only [PHONE_PATTERNS, List.mem_cons, List.not_mem_nil, or_false] at hp
  rcases hp with rfl | rfl | rfl | rfl
  · exact pattern1_norm_ready
  · exact fun s c r h => pattern_lit_core_norm_ready '8' (Or.inr rfl) s c r h
  · exact fun s c r h => pattern_lit_core_norm_ready '7' (Or.inl rfl) s c r h
  · exact pattern4_norm_ready

theorem extract_list_canonical :
    ∀ (ps : List (List Tok)),
      (∀ p ∈ ps, ∀ s c r, matchToks p s = some (c, r) →
        NormReady (c.filter Char.isDigit)) →
      ∀ (s : List Char) (v : String),
        extract_with_regex_list ps s = some v → isCanonicalPhone v := by
  intro ps
  induction ps with
  | nil => intro _ s v h; simp [extract_with_regex_list] at h
  | cons p ps ih =>
      intro hp s v h
      simp only [extract_with_regex_list] at h
      cases hm : searchToks p s with
      | some mtch =>
          rw [hm] at h
          obtain ⟨s', r, hmt⟩ := searchToks_some p s mtch hm
          rw [← Option.some.inj h]
          exact normalize_digits_canonical _
            (hp p (List.mem_cons_self _ _) s' _ r hmt)
      | none =>
          rw [hm] at h
          exact ih (fun q hq => hp q (List.mem_cons_of_mem _ hq)) s v h

theorem extract_with_regex_canonical (m v : String)
    (h : extract_with_regex m = some v) : isCanonicalPhone v :=
  extract_list_canonical PHONE_PATTERNS phone_patterns_norm_ready m.data v h

/-- C8: `PhoneExtractor.extract` is a deterministic pure function of the
message — no LLM client is consulted by construction — with a fixed
confidence of 0.9 on a regex match and 0.0 otherwise; every returned value
has the canonical `+7XXXXXXXXXX` shape; and the two reference inputs both
normalize to `"+79991234567"`. -/
theorem phone_extraction_deterministic_canonical :
    (∀ m : String,
        (∃ v, extract_with_regex m = some v ∧
          phone_extractor_extract m =
            { value := some v, confidence := mkRat 9 10,
              reasoning := "Найден через regex" } ∧
          isCanonicalPhone v) ∨
        (extract_with_regex m = none ∧
          phone_extractor_extract m =
            { value := none, confidence := 0,
              reasoning := "Телефон не найден" })) ∧
      (phone_extractor_extract "8 999 123-45-67").value = some "+79991234567" ∧
      (phone_extractor_extract "89991234567").value = some "+79991234567" := by
  refine ⟨?_, by rfl, by rfl⟩
  intro m
  cases he : extract_with_regex m with
  | some v =>
      exact Or.inl ⟨v, rfl, by simp [phone_extractor_extract, he],
        extract_with_regex_canonical m v he⟩
  | none => exact Or.inr ⟨rfl, by simp [phone_extractor_extract, he]⟩

end AiSales
